import Mathlib

/-!
Verification of the offline caching and synchronization layer of the
planning-precedent PWA (service worker `sw.js`, the PWA utility module
`pwa.ts`, and the Zustand stores in `store.ts`).

The development shallowly embeds the browser-side state: the durable
pending-action queue kept in IndexedDB, the named response caches kept in
the Cache Storage, the service-worker fetch handlers, the background-sync
reconciler, and the push-notification handler.  Asynchronous JavaScript is
embedded as explicit state passing; a `fetch` call is a parameter
`network : Request → Option Response` where `none` models a rejected fetch
promise (a network-level error) and `some r` a resolved promise carrying a
response of any HTTP status.
-/

namespace PlanningPWA

/-! ## Durable queue store (IndexedDB object store `pending-actions`)

The store has `keyPath: 'id', autoIncrement: true`: records receive
monotonically increasing integer keys and `getAll()` returns them in key
order, which is insertion order. -/

/-- A record of the `pending-actions` object store: `{ type, data, timestamp }`
plus the auto-assigned `id` key.  The payload and timestamp are opaque here. -/
structure PendingAction where
  id : Nat
  type : String
  data : String
  deriving DecidableEq, Repr

/-- The `pending-actions` object store: the records in key (= insertion)
order together with the auto-increment counter that yields the next key. -/
structure PendingDB where
  nextId : Nat
  actions : List PendingAction
  deriving DecidableEq, Repr

/-- `queueOfflineAction(type, data)` from `pwa.ts`: `store.add({type, data, timestamp})`
appends a fresh record under the next auto-increment key. -/
def queueOfflineAction (db : PendingDB) (type : String) (data : String) : PendingDB :=
  { nextId := db.nextId + 1
    actions := db.actions ++ [{ id := db.nextId, type := type, data := data }] }

/-- `getPendingActions(db, type)` from `sw.js`: `store.getAll()` (key order)
filtered by `a.type === type`. -/
def getPendingActions (db : PendingDB) (type : String) : List PendingAction :=
  db.actions.filter (fun a => a.type = type)

/-- `removePendingAction(db, type, id)` from `sw.js`: `store.delete(id)`.
An IndexedDB `delete` succeeds whether or not a record with that key
exists; the `type` argument is accepted but unused by the deletion. -/
def removePendingAction (db : PendingDB) (_type : String) (id : Nat) : PendingDB :=
  { db with actions := db.actions.filter (fun a => a.id ≠ id) }

/-- Well-formedness maintained by the store: keys are distinct and below the
auto-increment counter. -/
def wfDB (db : PendingDB) : Prop :=
  (db.actions.map (fun a => a.id)).Nodup ∧ ∀ a ∈ db.actions, a.id < db.nextId

instance : DecidablePred wfDB := fun db => by
  unfold wfDB; infer_instance

/-- Enqueue a whole list of payloads of one kind, oldest first. -/
def enqueueAll (db : PendingDB) (type : String) (payloads : List String) : PendingDB :=
  payloads.foldl (fun d p => queueOfflineAction d type p) db

/-! ## Sync reconciler (`syncSavedCases` / `syncSearchHistory` in `sw.js`)

The replay of one item is its `fetch(POST ...)` call.  A `fetch` promise
resolves for any HTTP status the server answers with — a 500 included —
and rejects only on a network-level error; the `catch` around each item is
reached only in the latter case.  `response.ok` is never inspected. -/

/-- Outcome of the `fetch` that replays one pending item: the promise
resolves with a response of some HTTP status, or rejects (network error). -/
inductive ReplayResult where
  | resp (status : Nat)
  | netError
  deriving DecidableEq, Repr

/-- `response.ok` of the Fetch API: status in the range 200–299. -/
def statusOk (n : Nat) : Bool := 200 ≤ n && n < 300

/-- `syncSavedCases` from `sw.js`: fetch the pending items of type
`saved-cases` once, then for each in order replay it; if the `fetch`
promise resolves (any status), remove the item; if it rejects, the
`catch` logs and the loop continues with the next item. -/
def syncSavedCases (replay : PendingAction → ReplayResult) (db : PendingDB) : PendingDB :=
  (getPendingActions db "saved-cases").foldl
    (fun d save =>
      match replay save with
      | .resp _ => removePendingAction d "saved-cases" save.id
      | .netError => d) db

/-- `syncSearchHistory` from `sw.js`: identical loop over the
`search-history` items. -/
def syncSearchHistory (replay : PendingAction → ReplayResult) (db : PendingDB) : PendingDB :=
  (getPendingActions db "search-history").foldl
    (fun d search =>
      match replay search with
      | .resp _ => removePendingAction d "search-history" search.id
      | .netError => d) db

/-! ## Push notifications (`push` listener in `sw.js`)

The listener starts from a `data` object holding the four defaults.  If the
event carries a payload it tries `event.data.json()`, which on success
REPLACES the whole object with the parsed one; on a parse failure only
`data.body` is overwritten with `event.data.text()`.  The notification is
then shown with `data.title` and `data.body` passed through unchanged
(`undefined` when the parsed object omits them) while `icon` and `badge`
get a `||` fallback to the defaults. -/

def defaultTitle : String := "Planning Precedent AI"
def defaultBody : String := "New notification"
def defaultIcon : String := "/icons/icon-192x192.png"
def defaultBadge : String := "/icons/badge-72x72.png"

/-- The push payload as the listener distinguishes it: no `event.data` at
all, a payload whose `json()` succeeds (each optional field present or
`undefined`), or one whose `json()` throws so `text()` is used. -/
inductive PushPayload where
  | noData
  | jsonData (title body icon badge : Option String)
  | textData (text : String)
  deriving DecidableEq, Repr

/-- JavaScript `x || d` on an optional string field: the default when the
field is `undefined` or the empty string (both falsy). -/
def jsOr (o : Option String) (d : String) : String :=
  match o with
  | none => d
  | some s => if s = "" then d else s

/-- The arguments passed to `showNotification`: the title (first argument)
and the `body` option may be `undefined`; `icon` and `badge` always hold a
string because of the `||` fallback. -/
structure ShownNote where
  title : Option String
  body : Option String
  icon : String
  badge : String
  deriving DecidableEq, Repr

/-- The `push` listener of `sw.js` as a function from the received payload
to the displayed notification. -/
def handlePush (p : PushPayload) : ShownNote :=
  let d : Option String × Option String × Option String × Option String :=
    match p with
    | .noData => (some defaultTitle, some defaultBody, some defaultIcon, some defaultBadge)
    | .jsonData t b i bg => (t, b, i, bg)
    | .textData txt => (some defaultTitle, some txt, some defaultIcon, some defaultBadge)
  { title := d.1
    body := d.2.1
    icon := jsOr d.2.2.1 defaultIcon
    badge := jsOr d.2.2.2 defaultBadge }

/-! ## Offline saved cases (`saveCaseOffline` in `pwa.ts`, `addCase` in `store.ts`) -/

/-- A record of the `saved-cases-offline` object store, keyed by
`reference`; the fields other than the key are opaque `content`, plus the
`savedAt` stamp added by `saveCaseOffline`. -/
structure OfflineCase where
  reference : String
  content : String
  savedAt : Nat
  deriving DecidableEq, Repr

/-- IndexedDB `put` on a store with `keyPath: 'reference'`: stores the
record under its key, replacing any record with the same key.  Records are
modelled up to key order. -/
def idbPutCase (s : List OfflineCase) (c : OfflineCase) : List OfflineCase :=
  c :: s.filter (fun e => e.reference ≠ c.reference)

/-- `saveCaseOffline(caseData)` from `pwa.ts`: `store.put({...caseData, savedAt: Date.now()})`. -/
def saveCaseOffline (now : Nat) (s : List OfflineCase) (reference content : String) :
    List OfflineCase :=
  idbPutCase s { reference := reference, content := content, savedAt := now }

/-- Key lookup in the `saved-cases-offline` store. -/
def lookupCase (s : List OfflineCase) (ref : String) : Option OfflineCase :=
  s.find? (fun e => e.reference = ref)

/-- A saved case of the persisted Zustand store: the business key and the
rest of the `PlanningDecision` record, opaque here. -/
structure PlanningDecision where
  case_reference : String
  content : String
  deriving DecidableEq, Repr

/-- `useSavedCasesStore.addCase` from `store.ts`: if some stored case
already has the same `case_reference` the state is returned unchanged,
otherwise the decision is appended. -/
def addCase (cases : List PlanningDecision) (d : PlanningDecision) : List PlanningDecision :=
  if cases.any (fun c => c.case_reference = d.case_reference) then cases
  else cases ++ [d]

/-! ## Recent searches (`useRecentSearchesStore.addSearch` in `store.ts`) -/

/-- One persisted recent-search entry: `{ query, timestamp }`. -/
structure SearchEntry where
  query : String
  timestamp : Nat
  deriving DecidableEq, Repr

/-- `addSearch(query)` from `store.ts`: prepend the new entry, drop every
older entry with the same query, keep the first 10 (`slice(0, 10)`). -/
def addSearch (now : Nat) (searches : List SearchEntry) (q : String) : List SearchEntry :=
  ({ query := q, timestamp := now } :: searches.filter (fun s => s.query ≠ q)).take 10

/-- The states the recent-searches store can be in: it starts empty and is
only changed by `addSearch` and `clearSearches` (which resets to `[]`). -/
inductive ReachableSearches : List SearchEntry → Prop where
  | init : ReachableSearches []
  | add (now : Nat) (q : String) {s : List SearchEntry} :
      ReachableSearches s → ReachableSearches (addSearch now s q)
  | clear {s : List SearchEntry} : ReachableSearches s → ReachableSearches []

/-! ## Cache storage and the fetch handlers (`sw.js`)

The Cache Storage is a list of named cache objects; each cache object maps
request URLs to stored responses.  `cache.put` follows the Cache API: it
stores under the request URL, replacing a previous entry, and it REJECTS
for a non-GET request — the worker never awaits the returned promise, so a
rejected put is a dropped write that leaves the cache unchanged.
`caches.match` consults request method and URL: a non-GET request matches
nothing (`ignoreMethod` is not set); matching a bare URL string treats it
as a GET request for that URL. -/

/-- A same-origin request as the fetch listener sees it: its pathname, its
method, and its mode (`navigate` for a full-page navigation). -/
structure Request where
  url : String
  method : String
  mode : String
  deriving DecidableEq, Repr

/-- A response: HTTP status, body and content type. -/
structure Response where
  status : Nat
  body : String
  contentType : String
  deriving DecidableEq, Repr

/-- `response.ok` of the Fetch API: status in the range 200–299. -/
def Response.ok (r : Response) : Bool := 200 ≤ r.status && r.status < 300

/-- One cache object: stored responses keyed by request URL. -/
abbrev Cache := List (String × Response)

/-- The Cache Storage: cache objects keyed by cache name (generation). -/
abbrev CacheStorage := List (String × Cache)

def CACHE_NAME : String := "planning-precedent-v1"
def OFFLINE_URL : String := "/offline"

/-- The API routes cached with the network-first strategy. -/
def API_CACHE_ROUTES : List String :=
  ["/api/v1/search/development-types",
   "/api/v1/search/conservation-areas",
   "/api/v1/wards",
   "/api/v1/policies"]

/-- Is the first character list an initial segment of the second? -/
def charsPre : List Char → List Char → Bool
  | [], _ => true
  | _ :: _, [] => false
  | a :: as, b :: bs => a == b && charsPre as bs

/-- Does the pattern occur contiguously in the character list? -/
def charsSub (pat : List Char) : List Char → Bool
  | [] => charsPre pat []
  | b :: bs => charsPre pat (b :: bs) || charsSub pat bs

/-- JavaScript `s.startsWith(pat)`. -/
def jsStartsWith (s pat : String) : Bool := charsPre pat.data s.data

/-- JavaScript `s.includes(pat)`. -/
def strIncludes (s pat : String) : Bool := charsSub pat.data s.data

/-- Lookup of a URL among a cache object's entries. -/
def cacheMatch (c : Cache) (url : String) : Option Response :=
  (c.find? (fun e => e.1 = url)).map (fun e => e.2)

/-- `caches.match(url)` for a bare URL string (an implied GET request):
the first match across the cache objects. -/
def cachesMatchUrl (s : CacheStorage) (url : String) : Option Response :=
  s.findSome? (fun e => cacheMatch e.2 url)

/-- `caches.match(request)`: a non-GET request matches no stored entry. -/
def cachesMatchReq (s : CacheStorage) (req : Request) : Option Response :=
  if req.method = "GET" then cachesMatchUrl s req.url else none

/-- `cache.put(request, response)`: stores under the request URL replacing
any previous entry; rejects (cache unchanged) for a non-GET request. -/
def cachePut (c : Cache) (req : Request) (resp : Response) : Cache :=
  if req.method = "GET" then (req.url, resp) :: c.filter (fun e => e.1 ≠ req.url) else c

/-- `caches.open(name)` followed by `cache.put(request, response)`:
opening creates the named cache when absent; the put lands in it. -/
def cachesOpenPut (s : CacheStorage) (name : String) (req : Request) (resp : Response) :
    CacheStorage :=
  if (s.find? (fun e => e.1 = name)).isSome then
    s.map (fun e => if e.1 = name then (e.1, cachePut e.2 req resp) else e)
  else s ++ [(name, cachePut [] req resp)]

/-- The cache object stored under a name (empty when the name is absent). -/
def openCache (s : CacheStorage) (name : String) : Cache :=
  match s.find? (fun e => e.1 = name) with
  | some e => e.2
  | none => []

/-- Observer of the Cache Storage state: the entry stored in the named
cache under the given URL. -/
def storageLookup (s : CacheStorage) (name url : String) : Option Response :=
  cacheMatch (openCache s name) url

/-- What the interception layer hands back to the caller: a response, or
the raw network error propagated (a rejected promise). -/
inductive FetchOutcome where
  | resp (r : Response)
  | netError
  deriving DecidableEq, Repr

/-- The synthesized offline reply of `handleApiRequest`:
`JSON.stringify({error, message})` with status 503. -/
def offlineApiResponse : Response :=
  { status := 503
    body := "\x7b\"error\":\"Offline\",\"message\":\"You are offline. Please check your connection.\"\x7d"
    contentType := "application/json" }

/-- The last-resort inline document of `handleNavigationRequest`. -/
def offlineFallbackHtml : Response :=
  { status := 503
    body := "<html><body><h1>Offline</h1><p>Please check your connection.</p></body></html>"
    contentType := "text/html" }

/-- `handleApiRequest` from `sw.js` (network-first).  On a resolved fetch:
cache it when the route is on the allow-list, the method is GET and the
response is ok, and return it.  On a rejected fetch: consult the cache for
GET requests only; in every remaining case return the synthesized offline
JSON response. -/
def handleApiRequest (network : Request → Option Response) (s : CacheStorage)
    (req : Request) : FetchOutcome × CacheStorage :=
  let shouldCache := API_CACHE_ROUTES.any (fun route => strIncludes req.url route)
  match network req with
  | some networkResponse =>
    if shouldCache && req.method = "GET" && networkResponse.ok then
      (.resp networkResponse, cachesOpenPut s CACHE_NAME req networkResponse)
    else
      (.resp networkResponse, s)
  | none =>
    if req.method = "GET" then
      match cachesMatchReq s req with
      | some cachedResponse => (.resp cachedResponse, s)
      | none => (.resp offlineApiResponse, s)
    else
      (.resp offlineApiResponse, s)

/-- `handleNavigationRequest` from `sw.js` (network-first).  On a resolved
fetch: cache every ok response (no method guard in the source — the
non-GET case is dropped by `cache.put` itself) and return it.  On a
rejected fetch: the cached page, else the pre-cached `/offline` document,
else the minimal inline fallback. -/
def handleNavigationRequest (network : Request → Option Response) (s : CacheStorage)
    (req : Request) : FetchOutcome × CacheStorage :=
  match network req with
  | some networkResponse =>
    if networkResponse.ok then
      (.resp networkResponse, cachesOpenPut s CACHE_NAME req networkResponse)
    else
      (.resp networkResponse, s)
  | none =>
    match cachesMatchReq s req with
    | some cachedResponse => (.resp cachedResponse, s)
    | none =>
      match cachesMatchUrl s OFFLINE_URL with
      | some offlineResponse => (.resp offlineResponse, s)
      | none => (.resp offlineFallbackHtml, s)

/-- `handleStaticRequest` from `sw.js` (cache-first): a cached match is
returned at once; otherwise fetch, cache ok GET responses, and on a
rejected fetch rethrow the raw error. -/
def handleStaticRequest (network : Request → Option Response) (s : CacheStorage)
    (req : Request) : FetchOutcome × CacheStorage :=
  match cachesMatchReq s req with
  | some cachedResponse => (.resp cachedResponse, s)
  | none =>
    match network req with
    | some networkResponse =>
      if networkResponse.ok && req.method = "GET" then
        (.resp networkResponse, cachesOpenPut s CACHE_NAME req networkResponse)
      else
        (.resp networkResponse, s)
    | none => (.netError, s)

/-- The `fetch` listener's dispatch for a same-origin request (cross-origin
requests return early and are never intercepted): the API prefix first,
then navigation mode, then static assets. -/
def handleFetch (network : Request → Option Response) (s : CacheStorage)
    (req : Request) : FetchOutcome × CacheStorage :=
  if jsStartsWith req.url "/api/" then handleApiRequest network s req
  else if req.mode = "navigate" then handleNavigationRequest network s req
  else handleStaticRequest network s req

/-- A live reference-data response used as a concrete network result. -/
def wardsResp : Response := { status := 200, body := "[]", contentType := "application/json" }

/-- A concrete GET request for an allow-listed API route. -/
def getWardsReq : Request := { url := "/api/v1/wards", method := "GET", mode := "cors" }

/-- A network that answers every request with `wardsResp`. -/
def netUp : Request → Option Response := fun _ => some wardsResp

/-- A network on which every fetch rejects. -/
def netDown : Request → Option Response := fun _ => none

/-- A mutating API request, as issued for a saved-case create. -/
def postSavedCaseReq : Request :=
  { url := "/api/v1/users/saved-cases", method := "POST", mode := "cors" }

/-- A stored probe entry. -/
def cachedProbe : Response := { status := 200, body := "cached", contentType := "application/json" }

/-- A concrete offline navigation to `/search`. -/
def navSearchReq : Request := { url := "/search", method := "GET", mode := "navigate" }

/-! ## Activation (`activate` listener in `sw.js`)

`caches.keys()` is filtered to the names other than `CACHE_NAME`, each of
those caches is deleted, and only after all the deletions resolve
(`Promise.all(...).then`) does `clients.claim()` take over the open
application instances. -/

/-- The externally observable steps the activate listener performs. -/
inductive SWEvent where
  | deleteCache (name : String)
  | claimClients
  deriving DecidableEq, Repr

/-- `caches.delete(name)`: the named cache object is removed entirely. -/
def cachesDelete (s : CacheStorage) (name : String) : CacheStorage :=
  s.filter (fun e => e.1 ≠ name)

/-- The ordered steps of the activate listener run against storage `s`:
one deletion per non-current cache name, then the client claim. -/
def activateTrace (s : CacheStorage) : List SWEvent :=
  (((s.map (fun e => e.1)).filter (fun name => name ≠ CACHE_NAME)).map SWEvent.deleteCache)
    ++ [SWEvent.claimClients]

/-- Effect of one step on the Cache Storage (claiming clients leaves it
untouched). -/
def applyEvent (s : CacheStorage) (e : SWEvent) : CacheStorage :=
  match e with
  | .deleteCache name => cachesDelete s name
  | .claimClients => s

/-- Run a sequence of steps against the Cache Storage. -/
def runEvents (s : CacheStorage) (es : List SWEvent) : CacheStorage :=
  es.foldl applyEvent s

/-- A storage holding a stale generation next to the current one. -/
def demoStorage : CacheStorage :=
  [("planning-precedent-v0", [("/page", cachedProbe)]),
   (CACHE_NAME, [("/page", wardsResp)])]

/-! ## Theorems -/

theorem getPendingActions_queue (db : PendingDB) (k k' p : String) :
    getPendingActions (queueOfflineAction db k p) k' =
      getPendingActions db k' ++
        (if k = k' then [{ id := db.nextId, type := k, data := p }] else []) := by
  simp only [getPendingActions, queueOfflineAction, List.filter_append]
  congr 1
  by_cases h : k = k' <;> simp [h, List.filter]

theorem wf_queue (db : PendingDB) (k p : String) (h : wfDB db) :
    wfDB (queueOfflineAction db k p) := by
  obtain ⟨h1, h2⟩ := h
  constructor
  · simp only [queueOfflineAction, List.map_append, List.map_cons, List.map_nil]
    rw [List.nodup_append]
    refine ⟨h1, List.nodup_singleton _, ?_⟩
    intro x hx hy
    simp only [List.mem_singleton] at hy
    subst hy
    simp only [List.mem_map] at hx
    obtain ⟨a, ha, hid⟩ := hx
    exact absurd hid (Nat.ne_of_lt (h2 a ha))
  · intro a ha
    simp only [queueOfflineAction, List.mem_append, List.mem_singleton] at ha
    rcases ha with ha | rfl
    · exact Nat.lt_succ_of_lt (h2 a ha)
    · exact Nat.lt_succ_self _

theorem wf_enqueueAll (db : PendingDB) (k : String) (ps : List String) (h : wfDB db) :
    wfDB (enqueueAll db k ps) := by
  induction ps generalizing db with
  | nil => exact h
  | cons p ps ih => exact ih _ (wf_queue _ _ _ h)

theorem getPendingActions_enqueueAll (db : PendingDB) (k : String) (ps : List String) :
    (getPendingActions (enqueueAll db k ps) k).map (fun a => a.data) =
      (getPendingActions db k).map (fun a => a.data) ++ ps := by
  induction ps generalizing db with
  | nil => simp [enqueueAll]
  | cons p ps ih =>
    show (getPendingActions (enqueueAll (queueOfflineAction db k p) k ps) k).map _ = _
    rw [ih, getPendingActions_queue]
    simp

theorem getPendingActions_remove_head (db : PendingDB) (k : String) (a : PendingAction)
    (rest : List PendingAction) (hwf : wfDB db)
    (h : getPendingActions db k = a :: rest) :
    getPendingActions (removePendingAction db k a.id) k = rest := by
  have hsub : ((getPendingActions db k).map (fun x => x.id)).Nodup := by
    have hs : (getPendingActions db k).Sublist db.actions := by
      simp only [getPendingActions]
      exact List.filter_sublist db.actions
    exact hwf.1.sublist (hs.map _)
  rw [h] at hsub
  simp only [List.map_cons, List.nodup_cons] at hsub
  have hrest : ∀ r ∈ rest, r.id ≠ a.id := by
    intro r hr heq
    exact hsub.1 (heq ▸ List.mem_map_of_mem _ hr)
  have key : getPendingActions (removePendingAction db k a.id) k
      = (getPendingActions db k).filter (fun x => x.id ≠ a.id) := by
    simp only [getPendingActions, removePendingAction, List.filter_filter]
    congr 1
    funext x
    simp [Bool.and_comm]
  rw [key, h, List.filter_cons_of_neg (by simp)]
  exact List.filter_eq_self.mpr (fun r hr => by simpa using hrest r hr)

/-- C4: enqueuing N payloads of one kind into a store holding none of that
kind, then listing that kind, returns exactly those items oldest-first
(their payloads are the enqueued payloads in order), and removing the first
listed item and re-listing returns the remaining items in their original
relative order. -/
theorem enqueue_list_remove_roundtrip (db : PendingDB) (kind : String) (ps : List String)
    (a : PendingAction) (rest : List PendingAction)
    (hwf : wfDB db) (h0 : getPendingActions db kind = [])
    (hlist : getPendingActions (enqueueAll db kind ps) kind = a :: rest) :
    (a :: rest).map (fun x => x.data) = ps ∧
    getPendingActions (removePendingAction (enqueueAll db kind ps) kind a.id) kind = rest := by
  constructor
  · have := getPendingActions_enqueueAll db kind ps
    rw [hlist, h0] at this
    simpa using this
  · exact getPendingActions_remove_head _ _ _ _ (wf_enqueueAll db kind ps hwf) hlist

theorem enqueue_list_remove_roundtrip_witness :
    ([⟨0, "saved-cases", "p0"⟩, ⟨1, "saved-cases", "p1"⟩] : List PendingAction).map
        (fun x => x.data) = ["p0", "p1"] ∧
    getPendingActions
      (removePendingAction (enqueueAll ⟨0, []⟩ "saved-cases" ["p0", "p1"]) "saved-cases" 0)
      "saved-cases" = [⟨1, "saved-cases", "p1"⟩] :=
  enqueue_list_remove_roundtrip ⟨0, []⟩ "saved-cases" ["p0", "p1"]
    ⟨0, "saved-cases", "p0"⟩ [⟨1, "saved-cases", "p1"⟩]
    (by decide) (by decide) (by decide)

/-- C8: removing a PendingAction by an id that is not in the store is a
no-op — no error is raised (the embedding of `store.delete` is total) and
every other queued item is untouched — and removing the same id again
gives the same store as removing it once. -/
theorem removePendingAction_absent_noop (db : PendingDB) (type : String) (id : Nat)
    (h : id ∉ db.actions.map (fun a => a.id)) :
    removePendingAction db type id = db ∧
    removePendingAction (removePendingAction db type id) type id =
      removePendingAction db type id := by
  have hid : ∀ a ∈ db.actions, a.id ≠ id := by
    intro a ha heq
    exact h (heq ▸ List.mem_map_of_mem _ ha)
  have hself : db.actions.filter (fun a => a.id ≠ id) = db.actions :=
    List.filter_eq_self.mpr (fun a ha => by simpa using hid a ha)
  have h1 : removePendingAction db type id = db := by
    calc removePendingAction db type id
        = { db with actions := db.actions.filter (fun a => a.id ≠ id) } := rfl
      _ = { db with actions := db.actions } := by rw [hself]
      _ = db := rfl
  exact ⟨h1, by rw [h1]; exact h1⟩

theorem removePendingAction_absent_noop_witness :
    removePendingAction ⟨2, [⟨0, "saved-cases", "x"⟩, ⟨1, "search-history", "y"⟩]⟩
        "saved-cases" 5 =
      ⟨2, [⟨0, "saved-cases", "x"⟩, ⟨1, "search-history", "y"⟩]⟩ ∧
    removePendingAction
        (removePendingAction ⟨2, [⟨0, "saved-cases", "x"⟩, ⟨1, "search-history", "y"⟩]⟩
          "saved-cases" 5) "saved-cases" 5 =
      removePendingAction ⟨2, [⟨0, "saved-cases", "x"⟩, ⟨1, "search-history", "y"⟩]⟩
        "saved-cases" 5 :=
  removePendingAction_absent_noop
    ⟨2, [⟨0, "saved-cases", "x"⟩, ⟨1, "search-history", "y"⟩]⟩ "saved-cases" 5 (by decide)

/-- C1 (failing input): a single queued item whose replay yields an HTTP
500 response — `statusOk 500 = false`, so the replay did not succeed — is
nevertheless removed from the queue by both reconciler loops, because the
`fetch` promise resolves and `response.ok` is never checked. -/
theorem sync_removes_item_despite_http500 :
    statusOk 500 = false ∧
    getPendingActions
      (syncSavedCases (fun _ => ReplayResult.resp 500) ⟨2, [⟨1, "saved-cases", "case-A"⟩]⟩)
      "saved-cases" = [] ∧
    getPendingActions
      (syncSearchHistory (fun _ => ReplayResult.resp 500) ⟨2, [⟨1, "search-history", "q"⟩]⟩)
      "search-history" = [] := by
  decide

/-- On a genuine network error the item does stay queued and does not block
the replay of the next item: with two queued saves where the first replay
rejects and the second resolves, only the second is removed. -/
theorem sync_netError_keeps_item_and_continues :
    getPendingActions
      (syncSavedCases
        (fun a => if a.id = 1 then ReplayResult.netError else ReplayResult.resp 200)
        ⟨3, [⟨1, "saved-cases", "case-A"⟩, ⟨2, "saved-cases", "case-B"⟩]⟩)
      "saved-cases" = [⟨1, "saved-cases", "case-A"⟩] := by
  decide

/-- C7 (counterexample): a structured JSON payload that omits every field —
the parse of `\x7b\x7d` — produces a notification whose title and body are
`undefined`, not the fixed defaults: `json()` replaced the defaults object
and only icon and badge have a `||` fallback. -/
theorem push_json_omitted_fields_not_defaulted :
    (handlePush (PushPayload.jsonData none none none none)).title ≠ some defaultTitle ∧
    (handlePush (PushPayload.jsonData none none none none)).body ≠ some defaultBody ∧
    (handlePush (PushPayload.jsonData none none none none)).icon = defaultIcon ∧
    (handlePush (PushPayload.jsonData none none none none)).badge = defaultBadge := by
  decide

/-- C7 (amended): an absent payload yields all four defaults; a non-JSON
payload yields the default title, icon and badge with the raw text as the
body; a structured payload gets the default icon and badge when it omits
them, but its title and body are used exactly as parsed (`undefined` when
omitted). -/
theorem handlePush_spec (t b i bg : Option String) (txt : String) :
    handlePush PushPayload.noData =
      { title := some defaultTitle, body := some defaultBody,
        icon := defaultIcon, badge := defaultBadge } ∧
    handlePush (PushPayload.textData txt) =
      { title := some defaultTitle, body := some txt,
        icon := defaultIcon, badge := defaultBadge } ∧
    handlePush (PushPayload.jsonData t b i bg) =
      { title := t, body := b, icon := jsOr i defaultIcon, badge := jsOr bg defaultBadge } := by
  refine ⟨by decide, ?_, rfl⟩
  simp [handlePush, jsOr, defaultIcon, defaultBadge]

/-- C9 (counterexample): `addCase` is first-write-wins, not last-write-wins:
re-adding the business key `APP-2024-001` with new content keeps the
originally stored content. -/
theorem addCase_repeated_save_keeps_first :
    addCase (addCase [] ⟨"APP-2024-001", "v1"⟩) ⟨"APP-2024-001", "v2"⟩ =
      [⟨"APP-2024-001", "v1"⟩] ∧
    ("v1" : String) ≠ "v2" := by
  decide

theorem nodup_idbPutCase (s : List OfflineCase) (c : OfflineCase)
    (h : (s.map (fun e => e.reference)).Nodup) :
    ((idbPutCase s c).map (fun e => e.reference)).Nodup := by
  simp only [idbPutCase, List.map_cons, List.nodup_cons]
  constructor
  · intro hmem
    obtain ⟨e, he, heq⟩ := List.mem_map.mp hmem
    have := (List.mem_filter.mp he).2
    simp only [decide_eq_true_eq] at this
    exact this heq
  · exact h.sublist ((List.filter_sublist s).map _)

/-- C9 (amended): both stores keep at most one local copy per business key,
but only the IndexedDB copy is last-write-wins — saving the same reference
twice through `saveCaseOffline` leaves the second content stored — while
`useSavedCasesStore.addCase` is first-write-wins: adding a decision whose
`case_reference` is already present leaves the store unchanged. -/
theorem saved_case_per_key_policy (now now' : Nat) (s : List OfflineCase)
    (ref c c' : String) (cs : List PlanningDecision) (d d' : PlanningDecision)
    (h1 : (s.map (fun e => e.reference)).Nodup)
    (h2 : (cs.map (fun e => e.case_reference)).Nodup)
    (h3 : d'.case_reference = d.case_reference) :
    ((saveCaseOffline now s ref c).map (fun e => e.reference)).Nodup ∧
    lookupCase (saveCaseOffline now' (saveCaseOffline now s ref c) ref c') ref =
      some { reference := ref, content := c', savedAt := now' } ∧
    ((addCase cs d).map (fun e => e.case_reference)).Nodup ∧
    addCase (addCase cs d) d' = addCase cs d := by
  have step : ∀ (l : List PlanningDecision) (x : PlanningDecision),
      l.any (fun e => e.case_reference = x.case_reference) = true → addCase l x = l := by
    intro l x hx
    unfold addCase
    rw [if_pos hx]
  refine ⟨nodup_idbPutCase s _ h1, by simp [saveCaseOffline, idbPutCase, lookupCase], ?_, ?_⟩
  · unfold addCase
    by_cases hmem : cs.any (fun e => e.case_reference = d.case_reference) = true
    · rw [if_pos hmem]; exact h2
    · rw [if_neg hmem]
      simp only [List.map_append, List.map_cons, List.map_nil]
      rw [List.nodup_append]
      refine ⟨h2, List.nodup_singleton _, ?_⟩
      intro x hx hy
      simp only [List.mem_singleton] at hy
      subst hy
      obtain ⟨e, he, heq⟩ := List.mem_map.mp hx
      exact hmem (List.any_eq_true.mpr ⟨e, he, by simp [heq]⟩)
  · by_cases hmem : cs.any (fun e => e.case_reference = d.case_reference) = true
    · rw [step cs d hmem]
      exact step cs d' (by rw [h3]; exact hmem)
    · have hcs : addCase cs d = cs ++ [d] := by
        unfold addCase
        rw [if_neg hmem]
      rw [hcs]
      refine step _ d' ?_
      rw [List.any_append]
      simp [h3]

theorem saved_case_per_key_policy_witness :
    ((saveCaseOffline 4 [] "APP-2024-001" "v1").map (fun e => e.reference)).Nodup ∧
    lookupCase (saveCaseOffline 9 (saveCaseOffline 4 [] "APP-2024-001" "v1")
        "APP-2024-001" "v2") "APP-2024-001" =
      some { reference := "APP-2024-001", content := "v2", savedAt := 9 } ∧
    ((addCase [] ⟨"APP-2024-001", "v1"⟩).map (fun e => e.case_reference)).Nodup ∧
    addCase (addCase [] ⟨"APP-2024-001", "v1"⟩) ⟨"APP-2024-001", "v3"⟩ =
      addCase [] ⟨"APP-2024-001", "v1"⟩ :=
  saved_case_per_key_policy 4 9 [] "APP-2024-001" "v1" "v2" []
    ⟨"APP-2024-001", "v1"⟩ ⟨"APP-2024-001", "v3"⟩ (by decide) (by decide) (by decide)

theorem reachable_searches_nodup {s : List SearchEntry} (h : ReachableSearches s) :
    (s.map (fun e => e.query)).Nodup := by
  induction h with
  | init => simp
  | clear _ => simp
  | @add now q s0 _ ih =>
    have h1 : ((({ query := q, timestamp := now } : SearchEntry) ::
        s0.filter (fun e => e.query ≠ q)).map (fun e => e.query)).Nodup := by
      simp only [List.map_cons, List.nodup_cons]
      constructor
      · intro hmem
        obtain ⟨e, he, heq⟩ := List.mem_map.mp hmem
        have := (List.mem_filter.mp he).2
        simp only [decide_eq_true_eq] at this
        exact this heq
      · exact ih.sublist ((List.filter_sublist _).map _)
    exact h1.sublist ((List.take_sublist _ _).map _)

/-- C10: in every state the store can reach, `addSearch` leaves at most 10
entries, puts the new query first, keeps the queries duplicate-free, and
the remaining entries are the previous ones other than the added query, in
their previous relative order (so a query already present is moved to the
front, not duplicated). -/
theorem addSearch_spec (now : Nat) (s : List SearchEntry) (q : String)
    (h : ReachableSearches s) :
    (addSearch now s q).length ≤ 10 ∧
    (addSearch now s q).head? = some { query := q, timestamp := now } ∧
    ((addSearch now s q).map (fun e => e.query)).Nodup ∧
    (addSearch now s q).tail = (s.filter (fun e => e.query ≠ q)).take 9 := by
  refine ⟨List.length_take_le _ _, ?_, ?_, ?_⟩
  · rw [addSearch, List.take_succ_cons]
    rfl
  · exact reachable_searches_nodup (ReachableSearches.add now q h)
  · rw [addSearch, List.take_succ_cons]
    rfl

theorem addSearch_spec_witness :
    (addSearch 5 (addSearch 3 [] "extension") "extension").length ≤ 10 ∧
    (addSearch 5 (addSearch 3 [] "extension") "extension").head? =
      some { query := "extension", timestamp := 5 } ∧
    ((addSearch 5 (addSearch 3 [] "extension") "extension").map (fun e => e.query)).Nodup ∧
    (addSearch 5 (addSearch 3 [] "extension") "extension").tail =
      ((addSearch 3 [] "extension").filter (fun e => e.query ≠ "extension")).take 9 :=
  addSearch_spec 5 (addSearch 3 [] "extension") "extension"
    (ReachableSearches.add 3 "extension" ReachableSearches.init)

theorem storageLookup_append_empty (s : CacheStorage) (n name url : String) :
    storageLookup (s ++ [(n, [])]) name url = storageLookup s name url := by
  unfold storageLookup openCache
  rw [List.find?_append]
  by_cases hp : n = name
  · rw [List.find?_cons_of_pos _ (by simpa using hp)]
    cases hs : s.find? (fun e => e.1 = name) <;> rfl
  · rw [List.find?_cons_of_neg _ (by simpa using hp), List.find?_nil]
    cases hs : s.find? (fun e => e.1 = name) <;> rfl

theorem storageLookup_openPut_non_get (s : CacheStorage) (n : String) (req : Request)
    (resp : Response) (hm : req.method ≠ "GET") (name url : String) :
    storageLookup (cachesOpenPut s n req resp) name url = storageLookup s name url := by
  have hput : ∀ c, cachePut c req resp = c := fun c => by
    unfold cachePut
    rw [if_neg hm]
  unfold cachesOpenPut
  simp only [hput]
  split
  · have hid : (fun (e : String × Cache) => if e.1 = n then (e.1, e.2) else e) = id :=
      funext fun e => by split <;> simp
    rw [hid, List.map_id]
  · exact storageLookup_append_empty s n name url

theorem handleFetch_state_cases (network : Request → Option Response) (s : CacheStorage)
    (req : Request) :
    (handleFetch network s req).2 = s ∨
    ∃ r, network req = some r ∧ r.ok = true ∧
      (handleFetch network s req).2 = cachesOpenPut s CACHE_NAME req r := by
  cases hn : network req with
  | none =>
    left
    simp only [handleFetch, handleApiRequest, handleNavigationRequest, handleStaticRequest, hn]
    repeat' split
    all_goals rfl
  | some r =>
    simp only [handleFetch, handleApiRequest, handleNavigationRequest, handleStaticRequest, hn]
    split
    · -- API class
      split
      case isTrue h =>
        right
        refine ⟨r, rfl, ?_, rfl⟩
        simp only [Bool.and_eq_true] at h
        exact h.2
      case isFalse h => exact Or.inl rfl
    · split
      · -- Navigation class
        split
        case isTrue h => exact Or.inr ⟨r, rfl, h, rfl⟩
        case isFalse h => exact Or.inl rfl
      · -- Static-asset class
        split
        · exact Or.inl rfl
        · split
          case isTrue h =>
            right
            refine ⟨r, rfl, ?_, rfl⟩
            simp only [Bool.and_eq_true] at h
            exact h.1
          case isFalse h => exact Or.inl rfl

/-- C3: across all three route classes and both outcomes, a cache entry is
written only for a GET request whose network response resolved with a 2xx
(`response.ok`) status: any changed cache lookup implies the request was a
GET and the fetched response ok.  (The navigation handler has no method
guard of its own, but the Cache API `put` rejects non-GET requests, so no
entry is created there either.) -/
theorem cache_entry_written_only_get_2xx (network : Request → Option Response)
    (s : CacheStorage) (req : Request) (name url : String)
    (h : storageLookup ((handleFetch network s req).2) name url ≠ storageLookup s name url) :
    req.method = "GET" ∧ ∃ r, network req = some r ∧ r.ok = true := by
  rcases handleFetch_state_cases network s req with hst | ⟨r, hr, hok, hst⟩
  · rw [hst] at h
    exact absurd rfl h
  · by_cases hm : req.method = "GET"
    · exact ⟨hm, r, hr, hok⟩
    · rw [hst] at h
      exact absurd (storageLookup_openPut_non_get s CACHE_NAME req r hm name url) h

theorem cache_entry_written_only_get_2xx_witness :
    getWardsReq.method = "GET" ∧ ∃ r, netUp getWardsReq = some r ∧ r.ok = true :=
  cache_entry_written_only_get_2xx netUp [] getWardsReq CACHE_NAME "/api/v1/wards" (by decide)

/-- C2 (counterexample): a POST API request whose fetch rejects — even with
an entry cached for that very URL — receives the synthesized 503 offline
JSON response; the raw network error is NOT surfaced to the caller. -/
theorem api_non_get_failure_gets_offline_response :
    (handleApiRequest netDown
        [(CACHE_NAME, [("/api/v1/users/saved-cases", cachedProbe)])] postSavedCaseReq).1 =
      FetchOutcome.resp offlineApiResponse ∧
    FetchOutcome.resp offlineApiResponse ≠ FetchOutcome.netError := by
  decide

/-- C2 (amended): for a non-GET API-class request whose fetch rejects, the
handler returns the synthesized 503 offline JSON response — the same
fallback a GET gets on a cache miss — with the storage unchanged and the
cache never consulted; the cached-response fallback applies only to GET
requests. -/
theorem handleApiRequest_non_get_failure (network : Request → Option Response)
    (s : CacheStorage) (req : Request) (hm : req.method ≠ "GET") (hn : network req = none) :
    handleApiRequest network s req = (FetchOutcome.resp offlineApiResponse, s) := by
  simp only [handleApiRequest, hn]
  rw [if_neg hm]

theorem handleApiRequest_non_get_failure_witness :
    handleApiRequest netDown [(CACHE_NAME, [("/api/v1/users/saved-cases", cachedProbe)])]
        postSavedCaseReq =
      (FetchOutcome.resp offlineApiResponse,
        [(CACHE_NAME, [("/api/v1/users/saved-cases", cachedProbe)])]) :=
  handleApiRequest_non_get_failure netDown
    [(CACHE_NAME, [("/api/v1/users/saved-cases", cachedProbe)])] postSavedCaseReq
    (by decide) rfl

/-- C5: for a navigation request whose fetch rejects, the response is the
cached copy of the requested page when one matches, else the pre-cached
`/offline` document when it is in a cache, else the minimal inline
fallback HTML document, which carries status 503. -/
theorem navigation_offline_fallback_chain (network : Request → Option Response)
    (s : CacheStorage) (req : Request) (hn : network req = none) :
    handleNavigationRequest network s req =
      (FetchOutcome.resp (((cachesMatchReq s req).or (cachesMatchUrl s OFFLINE_URL)).getD
        offlineFallbackHtml), s) ∧
    offlineFallbackHtml.status = 503 ∧
    offlineFallbackHtml.contentType = "text/html" := by
  refine ⟨?_, rfl, rfl⟩
  simp only [handleNavigationRequest, hn]
  cases h1 : cachesMatchReq s req <;> cases h2 : cachesMatchUrl s OFFLINE_URL <;>
    simp [h1, h2]

theorem navigation_offline_fallback_chain_witness :
    handleNavigationRequest netDown [] navSearchReq =
      (FetchOutcome.resp (((cachesMatchReq [] navSearchReq).or
          (cachesMatchUrl [] OFFLINE_URL)).getD offlineFallbackHtml), []) ∧
    offlineFallbackHtml.status = 503 ∧
    offlineFallbackHtml.contentType = "text/html" :=
  navigation_offline_fallback_chain netDown [] navSearchReq rfl

theorem foldl_cachesDelete (names : List String) (s : CacheStorage) :
    names.foldl cachesDelete s = s.filter (fun e => names.all (fun n => e.1 ≠ n)) := by
  induction names generalizing s with
  | nil => simp [List.filter_true]
  | cons n ns ih =>
    rw [List.foldl_cons, ih, cachesDelete, List.filter_filter]
    congr 1
    funext e
    simp [List.all_cons, Bool.and_comm]

theorem find?_filter_of_imp {α : Type} (l : List α) (p q : α → Bool)
    (h : ∀ a, q a = true → p a = true) :
    (l.filter p).find? q = l.find? q := by
  induction l with
  | nil => rfl
  | cons a l ih =>
    by_cases hq : q a = true
    · rw [List.filter_cons_of_pos (h a hq), List.find?_cons_of_pos _ hq,
        List.find?_cons_of_pos _ hq]
    · by_cases hp : p a = true
      · rw [List.filter_cons_of_pos hp, List.find?_cons_of_neg _ hq,
          List.find?_cons_of_neg _ hq]
        exact ih
      · rw [List.filter_cons_of_neg (by simpa using hp), List.find?_cons_of_neg _ hq]
        exact ih

/-- C6: for every Cache Storage state, the activation trace consists of
deletions of exactly the non-current cache names followed — strictly after
every deletion — by the client claim, and after running it no entry of any
non-current generation is retrievable while every entry of the current
generation is untouched. -/
theorem activation_purges_old_generations (s : CacheStorage) :
    (∃ ds, activateTrace s = ds ++ [SWEvent.claimClients] ∧
      ∀ e ∈ ds, ∃ name, name ≠ CACHE_NAME ∧ e = SWEvent.deleteCache name) ∧
    (∀ name url, name ≠ CACHE_NAME →
      storageLookup (runEvents s (activateTrace s)) name url = none) ∧
    (∀ url, storageLookup (runEvents s (activateTrace s)) CACHE_NAME url =
      storageLookup s CACHE_NAME url) := by
  have hrun : runEvents s (activateTrace s) =
      s.filter (fun e =>
        ((s.map (fun x => x.1)).filter (fun name => name ≠ CACHE_NAME)).all
          (fun n => e.1 ≠ n)) := by
    rw [activateTrace, runEvents, List.foldl_append, List.foldl_map]
    show List.foldl applyEvent (List.foldl cachesDelete s _) [SWEvent.claimClients] = _
    rw [List.foldl_cons, List.foldl_nil]
    show List.foldl cachesDelete s _ = _
    exact foldl_cachesDelete _ s
  refine ⟨⟨_, rfl, ?_⟩, ?_, ?_⟩
  · intro e he
    obtain ⟨name, hname, rfl⟩ := List.mem_map.mp he
    exact ⟨name, by simpa using (List.mem_filter.mp hname).2, rfl⟩
  · intro name url hname
    rw [hrun]
    unfold storageLookup openCache
    have hfind : (s.filter (fun e =>
        ((s.map (fun x => x.1)).filter (fun n => n ≠ CACHE_NAME)).all
          (fun n => e.1 ≠ n))).find? (fun e => e.1 = name) = none := by
      rw [List.find?_eq_none]
      intro e he hmatch
      have hmem := List.mem_filter.mp he
      have heq : e.1 = name := by simpa using hmatch
      have hin : e.1 ∈ (s.map (fun x => x.1)).filter (fun n => n ≠ CACHE_NAME) :=
        List.mem_filter.mpr ⟨List.mem_map_of_mem _ hmem.1, by simp [heq, hname]⟩
      have hall := List.all_eq_true.mp hmem.2 e.1 hin
      simp at hall
    rw [hfind]
    rfl
  · intro url
    rw [hrun]
    unfold storageLookup openCache
    rw [find?_filter_of_imp]
    intro e he
    have he1 : e.1 = CACHE_NAME := by simpa using he
    rw [List.all_eq_true]
    intro n hn
    have := (List.mem_filter.mp hn).2
    simp only [decide_eq_true_eq] at this ⊢
    rw [he1]
    exact fun hEq => this hEq.symm

theorem activation_purges_old_generations_witness :
    storageLookup (runEvents demoStorage (activateTrace demoStorage))
      "planning-precedent-v0" "/page" = none ∧
    storageLookup (runEvents demoStorage (activateTrace demoStorage)) CACHE_NAME "/page" =
      storageLookup demoStorage CACHE_NAME "/page" :=
  ⟨(activation_purges_old_generations demoStorage).2.1 "planning-precedent-v0" "/page"
      (by decide),
   (activation_purges_old_generations demoStorage).2.2 "/page"⟩

end PlanningPWA
